import Mathlib

/-!
Verification development for the CineVerse local session store and watchlist
store.  The definitions below are a shallow embedding of the TypeScript source:

* `src/app/contexts/AuthContext.tsx` — the reducer (`authReducer`), `login`,
  `register`, `logout`, `updateUser`; persisted keys `auth_user`,
  `registered_users`, `password_<id>`.
* `src/app/(tabs)/watchlist.tsx` — `loadWatchlist` on the watchlist screen, and
  the movie detail screen's `checkWatchlistStatus` / `toggleWatchlist`.
* `src/app/types/auth.ts` (concatenated detail screen) — the TV detail screen's
  `toggleWatchlist`.
* the profile screen's `loadProfileData` — corrupt-value repair.

AsyncStorage is modelled per persisted key.  Stored JSON blobs are modelled by
their parsed shape; a value on which `JSON.parse` throws is modelled by a
`corrupt` constructor.  Each `await AsyncStorage.setItem`/`removeItem` may
throw: operations take a schedule `wfail : Nat → Bool` giving, for the n-th
write of the operation, whether it fails.  A thrown error is modelled by the
`err`/`errored` component of the result (the source catches it, alerts or
re-throws, as noted on each definition).
-/

/-- Model of JavaScript `String.prototype.toLowerCase` on one character
(ASCII range: `A`–`Z` map to `a`–`z`, all other characters unchanged). -/
def lowerChar (c : Char) : Char :=
  if 65 ≤ c.toNat ∧ c.toNat ≤ 90 then Char.ofNat (c.toNat + 32) else c

/-- Model of JavaScript `String.prototype.toLowerCase`. -/
def lowerStr (s : String) : String := ⟨s.data.map lowerChar⟩

theorem toNat_ofNat_of_lt (n : Nat) (h : n < 55296) : (Char.ofNat n).toNat = n := by
  have hv : n.isValidChar := Or.inl h
  simp [Char.ofNat, hv, Char.ofNatAux, Char.toNat, UInt32.ofNat', UInt32.toNat,
    BitVec.toNat_ofNatLt]

theorem lowerChar_idem (c : Char) : lowerChar (lowerChar c) = lowerChar c := by
  unfold lowerChar
  by_cases h : 65 ≤ c.toNat ∧ c.toNat ≤ 90
  · rw [if_pos h]
    have h32 : (Char.ofNat (c.toNat + 32)).toNat = c.toNat + 32 :=
      toNat_ofNat_of_lt _ (by omega)
    rw [if_neg (by rw [h32]; omega)]
  · rw [if_neg h, if_neg h]

theorem lowerStr_idem (s : String) : lowerStr (lowerStr s) = lowerStr s := by
  simp only [lowerStr, List.map_map]
  congr 1
  simp only [Function.comp_def, lowerChar_idem]

/-! ## Data model (`src/app/types/auth.ts`) -/

/-- `User.preferences` from `src/app/types/auth.ts`. -/
structure Preferences where
  notifications : Bool
  darkMode : Bool
  language : String
  deriving DecidableEq

/-- `User` from `src/app/types/auth.ts`. -/
structure User where
  id : String
  email : String
  name : String
  avatar : Option String
  createdAt : String
  preferences : Preferences
  deriving DecidableEq

/-- `AuthState` from `src/app/types/auth.ts`. -/
structure AuthState where
  isAuthenticated : Bool
  user : Option User
  isLoading : Bool
  deriving DecidableEq

/-- `LoginCredentials` from `src/app/types/auth.ts`. -/
structure LoginCredentials where
  email : String
  password : String
  deriving DecidableEq

/-- `RegisterCredentials` from `src/app/types/auth.ts`. -/
structure RegisterCredentials where
  name : String
  email : String
  password : String
  confirmPassword : String
  deriving DecidableEq

/-- `Partial<User>` as used by `updateUser`: each field optionally present. -/
structure UserPatch where
  id : Option String
  email : Option String
  name : Option String
  avatar : Option String
  createdAt : Option String
  preferences : Option Preferences
  deriving DecidableEq

/-- JavaScript object spread `{ ...user, ...patch }` for a `Partial<User>`. -/
def applyPatch (u : User) (p : UserPatch) : User :=
  { id := p.id.getD u.id
    email := p.email.getD u.email
    name := p.name.getD u.name
    avatar := match p.avatar with | some a => some a | none => u.avatar
    createdAt := p.createdAt.getD u.createdAt
    preferences := p.preferences.getD u.preferences }

/-- `AuthAction` from `src/app/contexts/AuthContext.tsx`. -/
inductive AuthAction where
  | setLoading (b : Bool)
  | loginSuccess (u : User)
  | logoutAction
  | updateUserAction (p : UserPatch)
  deriving DecidableEq

/-- `authReducer` from `src/app/contexts/AuthContext.tsx` (console logging
omitted; it has no effect on the state). -/
def authReducer (s : AuthState) : AuthAction → AuthState
  | .setLoading b => { s with isLoading := b }
  | .loginSuccess u => { s with isAuthenticated := true, user := some u, isLoading := false }
  | .logoutAction => { s with isAuthenticated := false, user := none, isLoading := false }
  | .updateUserAction p => { s with user := s.user.map (fun u => applyPatch u p) }

/-- The persisted keys written by the session store:
`auth_user` (session slot), `registered_users` (registry; `none` = key absent,
read back as `[]`), and the `password_<id>` keys (an association list from full
key name to the raw stored password string). -/
structure AuthStore where
  authUser : Option User
  users : Option (List User)
  passwords : List (String × String)
  deriving DecidableEq

/-- `AsyncStorage.setItem` on a `password_<id>` key: overwrite the key. -/
def storePut (l : List (String × String)) (k v : String) : List (String × String) :=
  (k, v) :: l.filter (fun kv => kv.1 ≠ k)

/-- The distinct failure outcomes of `login` / `register` / `logout` /
`updateUser` in `src/app/contexts/AuthContext.tsx`: the four thrown `Error`
messages, plus a storage read/write rejection propagated out of an `await`. -/
inductive AuthError where
  | passwordsDoNotMatch
  | passwordTooShort
  | emailAlreadyRegistered
  | userNotFound
  | invalidPassword
  | storageFailure
  deriving DecidableEq

/-- Result of one session-store operation: the reducer state after the
operation, the persisted keys after it, and the error it ended with (`none`
for success).  For `login`/`register` a `some` error is re-thrown to the
caller after an alert; for `logout`/`updateUser` it is only alerted. -/
structure AuthStep where
  state : AuthState
  store : AuthStore
  err : Option AuthError
  deriving DecidableEq

/-- Default preferences given to a newly registered user
(`src/app/contexts/AuthContext.tsx`, `register`). -/
def defaultPreferences : Preferences :=
  { notifications := true, darkMode := true, language := "en" }

/-- The `User` object built by `register`: `id` is `Date.now().toString()`
(passed in as `now`), the email is stored lower-cased, `createdAt` is
`new Date().toISOString()` (passed in as `nowIso`). -/
def newUserOf (c : RegisterCredentials) (now : Nat) (nowIso : String) : User :=
  { id := toString now
    email := lowerStr c.email
    name := c.name
    avatar := none
    createdAt := nowIso
    preferences := defaultPreferences }

/-- `register` from `src/app/contexts/AuthContext.tsx`.  Validations run
before any storage access; the conflict check lower-cases both sides; the
three writes happen in order `registered_users`, `password_<id>`, `auth_user`;
`LOGIN_SUCCESS` is dispatched only after all three writes; on any thrown
error the `catch` dispatches `SET_LOADING false`, alerts, and re-throws. -/
def register (st : AuthState) (store : AuthStore) (c : RegisterCredentials)
    (now : Nat) (nowIso : String) (wfail : Nat → Bool) : AuthStep :=
  let st1 := authReducer st (.setLoading true)
  if c.password ≠ c.confirmPassword then
    ⟨authReducer st1 (.setLoading false), store, some .passwordsDoNotMatch⟩
  else if c.password.length < 6 then
    ⟨authReducer st1 (.setLoading false), store, some .passwordTooShort⟩
  else
    let users := store.users.getD []
    match users.find? (fun u => lowerStr u.email == lowerStr c.email) with
    | some _ => ⟨authReducer st1 (.setLoading false), store, some .emailAlreadyRegistered⟩
    | none =>
      let newUser := newUserOf c now nowIso
      if wfail 0 then ⟨authReducer st1 (.setLoading false), store, some .storageFailure⟩
      else
        let store1 := { store with users := some (users ++ [newUser]) }
        if wfail 1 then ⟨authReducer st1 (.setLoading false), store1, some .storageFailure⟩
        else
          let store2 := { store1 with
            passwords := storePut store1.passwords ("password_" ++ newUser.id) c.password }
          if wfail 2 then ⟨authReducer st1 (.setLoading false), store2, some .storageFailure⟩
          else
            ⟨authReducer st1 (.loginSuccess newUser),
             { store2 with authUser := some newUser }, none⟩

/-- `login` from `src/app/contexts/AuthContext.tsx`.  The user is found by
case-insensitive email comparison; the stored password must match exactly
(`null` never matches); the single write stores the found registry entry in
the `auth_user` slot before `LOGIN_SUCCESS` is dispatched. -/
def login (st : AuthState) (store : AuthStore) (c : LoginCredentials)
    (wfail : Nat → Bool) : AuthStep :=
  let st1 := authReducer st (.setLoading true)
  let users := store.users.getD []
  match users.find? (fun u => lowerStr u.email == lowerStr c.email) with
  | none => ⟨authReducer st1 (.setLoading false), store, some .userNotFound⟩
  | some user =>
    if store.passwords.lookup ("password_" ++ user.id) ≠ some c.password then
      ⟨authReducer st1 (.setLoading false), store, some .invalidPassword⟩
    else if wfail 0 then ⟨authReducer st1 (.setLoading false), store, some .storageFailure⟩
    else ⟨authReducer st1 (.loginSuccess user), { store with authUser := some user }, none⟩

/-- `logout` from `src/app/contexts/AuthContext.tsx`: remove the `auth_user`
key, then dispatch `LOGOUT`; on a thrown error only an alert is shown and no
action is dispatched. -/
def logout (st : AuthState) (store : AuthStore) (wfail : Nat → Bool) : AuthStep :=
  if wfail 0 then ⟨st, store, some .storageFailure⟩
  else ⟨authReducer st .logoutAction, { store with authUser := none }, none⟩

/-- `updateUser` from `src/app/contexts/AuthContext.tsx`: silent no-op without
a session user; otherwise write the merged user to `auth_user`, then (if the
id is found in the registry) to `registered_users`, then dispatch
`UPDATE_USER`; a thrown error is only alerted, not re-thrown. -/
def updateUser (st : AuthState) (store : AuthStore) (p : UserPatch)
    (wfail : Nat → Bool) : AuthStep :=
  match st.user with
  | none => ⟨st, store, none⟩
  | some u =>
    let updatedUser := applyPatch u p
    if wfail 0 then ⟨st, store, some .storageFailure⟩
    else
      let store1 := { store with authUser := some updatedUser }
      let users := store1.users.getD []
      match users.findIdx? (fun v => v.id == u.id) with
      | some i =>
        if wfail 1 then ⟨st, store1, some .storageFailure⟩
        else ⟨authReducer st (.updateUserAction p),
              { store1 with users := some (users.set i updatedUser) }, none⟩
      | none => ⟨authReducer st (.updateUserAction p), store1, none⟩

/-! ## Watchlist store (`src/app/(tabs)/watchlist.tsx`, detail screens,
profile screen) -/

/-- The `media_type` discriminator tag. -/
inductive MediaType where
  | movie
  | tv
  deriving DecidableEq

/-- An entry of the persisted movie collection (key `watchlist`): the numeric
TMDB id plus its remaining payload fields, represented by the title. -/
structure MovieItem where
  id : Nat
  title : String
  deriving DecidableEq

/-- An entry of the persisted TV collection (key `tvWatchlist`): the numeric
TMDB id, the payload (`name`), and whether the object carries the
`media_type: 'tv'` tag added by the TV detail screen's push. -/
structure TVItem where
  id : Nat
  name : String
  hasMediaTypeTag : Bool
  deriving DecidableEq

/-- A stored value at the `watchlist` key: either a JSON array of entries, or
a raw string on which `JSON.parse` throws (a parsed non-array value behaves
the same way in every reader, so it is folded into `corrupt`). -/
inductive MWVal where
  | ok (items : List MovieItem)
  | corrupt (raw : String)
  deriving DecidableEq

/-- A stored value at the `tvWatchlist` key. -/
inductive TWVal where
  | ok (items : List TVItem)
  | corrupt (raw : String)
  deriving DecidableEq

/-- A combined-watchlist row as built by the watchlist screen: every stored
field plus the `media_type` annotation added by `loadWatchlist`'s map. -/
structure WLRow where
  id : Nat
  title : String
  media_type : MediaType
  deriving DecidableEq

/-- `{ ...item, media_type: 'movie' }` in `loadWatchlist`. -/
def annotateMovie (m : MovieItem) : WLRow := ⟨m.id, m.title, .movie⟩

/-- `{ ...item, media_type: 'tv' }` in `loadWatchlist` (overriding any stored
tag). -/
def annotateTV (t : TVItem) : WLRow := ⟨t.id, t.name, .tv⟩

/-- Result of the watchlist screen's `loadWatchlist`: the `watchlist` React
state after the call, and both persisted slots after the call. -/
structure WatchlistScreenLoad where
  rows : List WLRow
  movieSlot : Option MWVal
  tvSlot : Option TWVal
  deriving DecidableEq

/-- `loadWatchlist` from `src/app/(tabs)/watchlist.tsx`: reads both keys,
parses the movie blob then the TV blob, annotates each entry with its source
collection's media type and concatenates.  An absent key contributes `[]`.  A
`JSON.parse` throw on either blob is caught by the surrounding `catch`, which
only logs: `setWatchlist` is not reached (the previous rows stay) and nothing
is written back to storage. -/
def loadWatchlist (prev : List WLRow) (movieSlot : Option MWVal)
    (tvSlot : Option TWVal) : WatchlistScreenLoad :=
  match movieSlot, tvSlot with
  | some (.corrupt _), _ => ⟨prev, movieSlot, tvSlot⟩
  | _, some (.corrupt _) => ⟨prev, movieSlot, tvSlot⟩
  | some (.ok ms), some (.ok ts) =>
      ⟨ms.map annotateMovie ++ ts.map annotateTV, movieSlot, tvSlot⟩
  | some (.ok ms), none => ⟨ms.map annotateMovie, movieSlot, tvSlot⟩
  | none, some (.ok ts) => ⟨ts.map annotateTV, movieSlot, tvSlot⟩
  | none, none => ⟨[], movieSlot, tvSlot⟩

/-- Result of the profile screen's `loadProfileData`: the `totalMovies` stat
and the `watchlist` slot after the call. -/
structure ProfileLoad where
  totalMovies : Nat
  movieSlot : Option MWVal
  deriving DecidableEq

/-- The profile screen's validity filter on parsed watchlist entries:
`movie && typeof movie === 'object' && movie.id && movie.title` (on a typed
entry, truthiness of `id` and `title`). -/
def validMovies (items : List MovieItem) : List MovieItem :=
  items.filter (fun m => m.id != 0 && m.title != "")

/-- `loadProfileData` from the profile screen: an absent key yields zero
stats; a parsed array is filtered to valid entries and counted; a `JSON.parse`
throw (or a parsed non-array) is repaired by `AsyncStorage.removeItem` on the
`watchlist` key, with zero stats. -/
def loadProfileData (movieSlot : Option MWVal) : ProfileLoad :=
  match movieSlot with
  | none => ⟨0, none⟩
  | some (.ok items) => ⟨(validMovies items).length, some (.ok items)⟩
  | some (.corrupt _) => ⟨0, none⟩

/-- `checkWatchlistStatus` on the movie detail screen: membership of the
screen's id in the parsed `watchlist` array; an absent key leaves the
`isInWatchlist` flag untouched (the `if (watchlist)` guard), and a parse
throw is caught leaving the flag untouched. -/
def checkWatchlistStatus (prevFlag : Bool) (movieSlot : Option MWVal)
    (movieId : Nat) : Bool :=
  match movieSlot with
  | none => prevFlag
  | some (.ok items) => items.any (fun item => item.id == movieId)
  | some (.corrupt _) => prevFlag

/-- Result of a detail screen's `toggleWatchlist` on the movie collection:
the `watchlist` slot after, the `isInWatchlist` flag after, and whether the
operation ended in the `catch` (error toast, flag and slot untouched). -/
structure MovieToggleResult where
  slot : Option MWVal
  isInWatchlist : Bool
  errored : Bool
  deriving DecidableEq

/-- `toggleWatchlist` on the movie detail screen
(`src/app/(tabs)/watchlist.tsx`, concatenated detail screen): if the screen's
`isInWatchlist` flag is set, filter out every entry whose id equals the
movie's id; otherwise push the movie object; write the array back; only then
flip the flag.  A parse throw or a write failure is caught: slot and flag are
left unchanged. -/
def toggleWatchlistMovie (slot : Option MWVal) (isInWatchlist : Bool)
    (movie : MovieItem) (wfail : Nat → Bool) : MovieToggleResult :=
  match slot with
  | some (.corrupt _) => ⟨slot, isInWatchlist, true⟩
  | _ =>
    let arr := match slot with | some (.ok l) => l | _ => []
    let arr2 := if isInWatchlist then arr.filter (fun item => item.id != movie.id)
                else arr ++ [movie]
    if wfail 0 then ⟨slot, isInWatchlist, true⟩
    else ⟨some (.ok arr2), !isInWatchlist, false⟩

/-- Result of the TV detail screen's `toggleWatchlist`. -/
structure TVToggleResult where
  slot : Option TWVal
  isInWatchlist : Bool
  errored : Bool
  deriving DecidableEq

/-- `toggleWatchlist` on the TV detail screen (`src/app/types/auth.ts`,
concatenated detail screen): same shape as the movie version, except the
pushed object is `{ ...tvShow, media_type: 'tv' }`. -/
def toggleWatchlistTV (slot : Option TWVal) (isInWatchlist : Bool)
    (tvShow : TVItem) (wfail : Nat → Bool) : TVToggleResult :=
  match slot with
  | some (.corrupt _) => ⟨slot, isInWatchlist, true⟩
  | _ =>
    let arr := match slot with | some (.ok l) => l | _ => []
    let arr2 := if isInWatchlist then arr.filter (fun item => item.id != tvShow.id)
                else arr ++ [{ tvShow with hasMediaTypeTag := true }]
    if wfail 0 then ⟨slot, isInWatchlist, true⟩
    else ⟨some (.ok arr2), !isInWatchlist, false⟩

/-- The mutations a single collection (here the movie one) undergoes, for the
uniqueness invariant: a toggle whose flag was produced by the presence check
(`checkWatchlistStatus` semantics, id membership), the watchlist screen's
`removeFromWatchlist` filter, and `clearWatchlist` (key removal, read back as
empty). -/
inductive WOp where
  | toggleOp (item : MovieItem)
  | removeOp (id : Nat)
  | clearOp
  deriving DecidableEq

/-- One mutation applied to the parsed movie collection. -/
def applyWOp (arr : List MovieItem) : WOp → List MovieItem
  | .toggleOp item =>
      if arr.any (fun x => x.id == item.id) then arr.filter (fun x => x.id != item.id)
      else arr ++ [item]
  | .removeOp i => arr.filter (fun x => x.id != i)
  | .clearOp => []

/-- A sequence of mutations applied in order. -/
def runWOps (arr : List MovieItem) (ops : List WOp) : List MovieItem :=
  ops.foldl applyWOp arr

/-! ## Helper lemmas -/

theorem lookup_storePut (l : List (String × String)) (k v : String) :
    (storePut l k v).lookup k = some v := by
  simp [storePut, List.lookup]

theorem find?_none_of_fresh (users : List User) (e : String)
    (h : ∀ u ∈ users, lowerStr u.email ≠ lowerStr e) :
    users.find? (fun u => lowerStr u.email == lowerStr e) = none := by
  rw [List.find?_eq_none]
  intro u hu
  simpa using h u hu

theorem find?_snoc_self (users : List User) (nu : User) (e : String)
    (hfresh : users.find? (fun u => lowerStr u.email == lowerStr e) = none)
    (hnu : lowerStr nu.email = lowerStr e) :
    (users ++ [nu]).find? (fun u => lowerStr u.email == lowerStr e) = some nu := by
  rw [List.find?_append, hfresh]
  simp [List.find?, hnu]

/-- Characterization of a successful `register`: with valid inputs, a fresh
email and no write failure, the reducer authenticates the new user and all
three keys are written. -/
theorem register_success (st : AuthState) (store : AuthStore) (c : RegisterCredentials)
    (now : Nat) (nowIso : String)
    (hc : c.confirmPassword = c.password) (hlen : 6 ≤ c.password.length)
    (hfind : (store.users.getD []).find? (fun u => lowerStr u.email == lowerStr c.email) = none) :
    register st store c now nowIso (fun _ => false) =
      ⟨{ isAuthenticated := true, user := some (newUserOf c now nowIso), isLoading := false },
       { authUser := some (newUserOf c now nowIso)
         users := some (store.users.getD [] ++ [newUserOf c now nowIso])
         passwords := storePut store.passwords ("password_" ++ toString now) c.password },
       none⟩ := by
  unfold register
  rw [if_neg (by simp [hc]), if_neg (by omega)]
  simp only [hfind]
  simp [authReducer, newUserOf]

/-- Characterization of a successful `login`: the found registry entry is
copied into the `auth_user` slot and into the reducer state. -/
theorem login_success (st : AuthState) (store : AuthStore) (c : LoginCredentials) (u : User)
    (hfind : (store.users.getD []).find? (fun x => lowerStr x.email == lowerStr c.email) = some u)
    (hpw : store.passwords.lookup ("password_" ++ u.id) = some c.password) :
    login st store c (fun _ => false) =
      ⟨{ isAuthenticated := true, user := some u, isLoading := false },
       { store with authUser := some u }, none⟩ := by
  unfold login
  simp only [hfind]
  rw [if_neg (by simp [hpw])]
  simp [authReducer]

/-! ## Claims -/

/-- C1: for every name, email and password with password length at least 6
and no registry entry whose email equals the given email case-insensitively,
`register(name, email, password, password)` succeeds and transitions the
session to Authenticated, and a subsequent `logout` followed by
`login(email, password)` succeeds and yields a session user equal to — in
particular with the same id as — the one allocated at registration. -/
theorem register_logout_login_roundtrip
    (st : AuthState) (store : AuthStore) (name email password : String)
    (now : Nat) (nowIso : String)
    (hlen : 6 ≤ password.length)
    (hfresh : ∀ u ∈ store.users.getD [], lowerStr u.email ≠ lowerStr email) :
    let r1 := register st store ⟨name, email, password, password⟩ now nowIso (fun _ => false)
    let r2 := logout r1.state r1.store (fun _ => false)
    let r3 := login r2.state r2.store ⟨email, password⟩ (fun _ => false)
    r1.err = none ∧ r1.state.isAuthenticated = true ∧
    r2.err = none ∧ r2.state.isAuthenticated = false ∧
    r3.err = none ∧ r3.state.isAuthenticated = true ∧
    r3.state.user = r1.state.user ∧
    ∃ u, r1.state.user = some u ∧ u.id = toString now := by
  have hfind := find?_none_of_fresh (store.users.getD []) email hfresh
  have h1 := register_success st store ⟨name, email, password, password⟩ now nowIso rfl hlen hfind
  dsimp only
  rw [h1]
  have h2 : logout (⟨true, some (newUserOf ⟨name, email, password, password⟩ now nowIso),
        false⟩ : AuthState)
      (⟨some (newUserOf ⟨name, email, password, password⟩ now nowIso),
        some (store.users.getD [] ++ [newUserOf ⟨name, email, password, password⟩ now nowIso]),
        storePut store.passwords ("password_" ++ toString now) password⟩ : AuthStore)
      (fun _ => false) =
      ⟨⟨false, none, false⟩,
       ⟨none,
        some (store.users.getD [] ++ [newUserOf ⟨name, email, password, password⟩ now nowIso]),
        storePut store.passwords ("password_" ++ toString now) password⟩,
       none⟩ := by
    simp [logout, authReducer]
  rw [h2]
  have hnu : lowerStr (newUserOf ⟨name, email, password, password⟩ now nowIso).email
      = lowerStr email := lowerStr_idem email
  have hfind2 := find?_snoc_self (store.users.getD [])
    (newUserOf ⟨name, email, password, password⟩ now nowIso) email hfind hnu
  have h3 := login_success (⟨false, none, false⟩ : AuthState)
    (⟨none,
      some (store.users.getD [] ++ [newUserOf ⟨name, email, password, password⟩ now nowIso]),
      storePut store.passwords ("password_" ++ toString now) password⟩ : AuthStore)
    ⟨email, password⟩ (newUserOf ⟨name, email, password, password⟩ now nowIso)
    (by simpa using hfind2)
    (by simpa [newUserOf] using lookup_storePut store.passwords ("password_" ++ toString now) password)
  rw [h3]
  exact ⟨rfl, rfl, rfl, rfl, rfl, rfl, rfl, ⟨_, rfl, rfl⟩⟩

/-- C1 witness: a concrete run of register → logout → login from an empty
registry. -/
theorem register_logout_login_roundtrip_witness :
    let st0 : AuthState := ⟨false, none, true⟩
    let store0 : AuthStore := ⟨none, none, []⟩
    let r1 := register st0 store0 ⟨"Ann", "Ann@X.com", "secret1", "secret1"⟩ 17 "2024-01-01" (fun _ => false)
    let r2 := logout r1.state r1.store (fun _ => false)
    let r3 := login r2.state r2.store ⟨"Ann@X.com", "secret1"⟩ (fun _ => false)
    r1.err = none ∧ r1.state.isAuthenticated = true ∧
    r2.err = none ∧ r2.state.isAuthenticated = false ∧
    r3.err = none ∧ r3.state.isAuthenticated = true ∧
    r3.state.user = r1.state.user ∧
    ∃ u, r1.state.user = some u ∧ u.id = toString 17 :=
  register_logout_login_roundtrip ⟨false, none, true⟩ ⟨none, none, []⟩
    "Ann" "Ann@X.com" "secret1" 17 "2024-01-01" (by decide) (by simp)

/-- C10: `register` stores and returns the user with the email lower-cased,
and a successful `login` — with any case variant of that email — copies the
registry entry into the session slot, so the session user's email is the
lowercase form of the email supplied at registration. -/
theorem register_stores_lowercased_email
    (st : AuthState) (store : AuthStore) (name email password loginEmail : String)
    (now : Nat) (nowIso : String)
    (hlen : 6 ≤ password.length)
    (hfresh : ∀ u ∈ store.users.getD [], lowerStr u.email ≠ lowerStr email)
    (hcase : lowerStr loginEmail = lowerStr email) :
    let r1 := register st store ⟨name, email, password, password⟩ now nowIso (fun _ => false)
    let r3 := login r1.state r1.store ⟨loginEmail, password⟩ (fun _ => false)
    ∃ u : User,
      r1.err = none ∧ r1.state.user = some u ∧ r1.store.authUser = some u ∧
      r1.store.users = some (store.users.getD [] ++ [u]) ∧
      u.email = lowerStr email ∧
      r3.err = none ∧ r3.state.user = some u ∧ r3.store.authUser = some u := by
  have hfind := find?_none_of_fresh (store.users.getD []) email hfresh
  have h1 := register_success st store ⟨name, email, password, password⟩ now nowIso rfl hlen hfind
  dsimp only
  rw [h1]
  have hfreshL : (store.users.getD []).find?
      (fun u => lowerStr u.email == lowerStr loginEmail) = none := by
    rw [hcase]; exact hfind
  have hnu : lowerStr (newUserOf ⟨name, email, password, password⟩ now nowIso).email
      = lowerStr loginEmail := by
    rw [hcase]; exact lowerStr_idem email
  have hfind2 := find?_snoc_self (store.users.getD [])
    (newUserOf ⟨name, email, password, password⟩ now nowIso) loginEmail hfreshL hnu
  have h3 := login_success (⟨true, some (newUserOf ⟨name, email, password, password⟩ now nowIso),
      false⟩ : AuthState)
    (⟨some (newUserOf ⟨name, email, password, password⟩ now nowIso),
      some (store.users.getD [] ++ [newUserOf ⟨name, email, password, password⟩ now nowIso]),
      storePut store.passwords ("password_" ++ toString now) password⟩ : AuthStore)
    ⟨loginEmail, password⟩ (newUserOf ⟨name, email, password, password⟩ now nowIso)
    (by simpa using hfind2)
    (by simpa [newUserOf] using lookup_storePut store.passwords ("password_" ++ toString now) password)
  rw [h3]
  exact ⟨newUserOf ⟨name, email, password, password⟩ now nowIso,
    rfl, rfl, rfl, rfl, rfl, rfl, rfl, rfl⟩

/-- C10 witness: registering with a mixed-case email and logging in with a
differently-cased variant yields a session user with the lowercase email. -/
theorem register_stores_lowercased_email_witness :
    let st0 : AuthState := ⟨false, none, true⟩
    let store0 : AuthStore := ⟨none, none, []⟩
    let r1 := register st0 store0 ⟨"Ann", "Ann@X.com", "secret1", "secret1"⟩ 17 "2024-01-01" (fun _ => false)
    let r3 := login r1.state r1.store ⟨"ANN@x.COM", "secret1"⟩ (fun _ => false)
    ∃ u : User,
      r1.err = none ∧ r1.state.user = some u ∧ r1.store.authUser = some u ∧
      r1.store.users = some ((none : Option (List User)).getD [] ++ [u]) ∧
      u.email = lowerStr "Ann@X.com" ∧
      r3.err = none ∧ r3.state.user = some u ∧ r3.store.authUser = some u :=
  register_stores_lowercased_email ⟨false, none, true⟩ ⟨none, none, []⟩
    "Ann" "Ann@X.com" "secret1" "ANN@x.COM" 17 "2024-01-01" (by decide) (by simp) (by decide)

/-- C5: when the password differs from its confirmation, or is shorter than 6
characters, `register` fails with a validation error before any storage
write: every persisted key (registry, credentials, session slot) is
unchanged, and the authenticated flag and session user are unchanged (so an
unauthenticated session stays unauthenticated) — for any write-failure
schedule, since no write is attempted. -/
theorem register_validation_failure
    (st : AuthState) (store : AuthStore) (c : RegisterCredentials)
    (now : Nat) (nowIso : String) (wfail : Nat → Bool)
    (h : c.password ≠ c.confirmPassword ∨ c.password.length < 6) :
    let r := register st store c now nowIso wfail
    (r.err = some .passwordsDoNotMatch ∨ r.err = some .passwordTooShort) ∧
    r.store = store ∧
    r.state.isAuthenticated = st.isAuthenticated ∧ r.state.user = st.user := by
  dsimp only
  unfold register
  by_cases hne : c.password = c.confirmPassword
  · have hlen : c.password.length < 6 := by
      rcases h with h | h
      · exact absurd hne h
      · exact h
    rw [if_neg (by simp [hne]), if_pos hlen]
    exact ⟨Or.inr rfl, rfl, rfl, rfl⟩
  · rw [if_pos hne]
    exact ⟨Or.inl rfl, rfl, rfl, rfl⟩

/-- C5 witness: a concrete mismatched-confirmation registration. -/
theorem register_validation_failure_witness :
    let st0 : AuthState := ⟨false, none, false⟩
    let store0 : AuthStore := ⟨none, some [], []⟩
    let r := register st0 store0 ⟨"Bob", "bob@x.com", "secret1", "secret2"⟩ 3 "t" (fun _ => false)
    (r.err = some .passwordsDoNotMatch ∨ r.err = some .passwordTooShort) ∧
    r.store = store0 ∧
    r.state.isAuthenticated = st0.isAuthenticated ∧ r.state.user = st0.user :=
  register_validation_failure ⟨false, none, false⟩ ⟨none, some [], []⟩
    ⟨"Bob", "bob@x.com", "secret1", "secret2"⟩ 3 "t" (fun _ => false) (Or.inl (by decide))

/-- C6: with an otherwise valid input, registering an email of which some
case variant is already in the registry fails with the conflict error, and
registry, credentials and session (both persisted and in-memory) are
unchanged by the failed attempt. -/
theorem register_duplicate_email_conflict
    (st : AuthState) (store : AuthStore) (c : RegisterCredentials)
    (now : Nat) (nowIso : String) (wfail : Nat → Bool) (u : User)
    (hc : c.confirmPassword = c.password) (hlen : 6 ≤ c.password.length)
    (hu : u ∈ store.users.getD []) (hmatch : lowerStr u.email = lowerStr c.email) :
    let r := register st store c now nowIso wfail
    r.err = some .emailAlreadyRegistered ∧ r.store = store ∧
    r.state.isAuthenticated = st.isAuthenticated ∧ r.state.user = st.user := by
  dsimp only
  unfold register
  rw [if_neg (by simp [hc]), if_neg (by omega)]
  have hsome : ∃ w, (store.users.getD []).find?
      (fun v => lowerStr v.email == lowerStr c.email) = some w := by
    cases hfind : (store.users.getD []).find? (fun v => lowerStr v.email == lowerStr c.email) with
    | none =>
        exact absurd (by simpa using List.find?_eq_none.mp hfind u hu) (by simp [hmatch])
    | some w => exact ⟨w, rfl⟩
  obtain ⟨w, hfind⟩ := hsome
  simp [hfind, authReducer]

/-- C6 witness: registering `A@x.com` when `a@x.com` is in the registry. -/
theorem register_duplicate_email_conflict_witness :
    let u0 : User := ⟨"7", "a@x.com", "Ann", none, "t0", defaultPreferences⟩
    let st0 : AuthState := ⟨false, none, false⟩
    let store0 : AuthStore := ⟨none, some [u0], [("password_7", "secret1")]⟩
    let r := register st0 store0 ⟨"Ann2", "A@x.com", "other66", "other66"⟩ 9 "t1" (fun _ => false)
    r.err = some .emailAlreadyRegistered ∧ r.store = store0 ∧
    r.state.isAuthenticated = st0.isAuthenticated ∧ r.state.user = st0.user :=
  register_duplicate_email_conflict ⟨false, none, false⟩
    ⟨none, some [⟨"7", "a@x.com", "Ann", none, "t0", defaultPreferences⟩], [("password_7", "secret1")]⟩
    ⟨"Ann2", "A@x.com", "other66", "other66"⟩ 9 "t1" (fun _ => false)
    ⟨"7", "a@x.com", "Ann", none, "t0", defaultPreferences⟩
    rfl (by decide) (by simp) (by decide)

/-- C7: logging in as a registered user (the registry entry found for the
supplied email) with a password different from that user's stored credential
fails with the invalid-password error and alters nothing: authenticated flag,
session user, and all persisted keys are the same after the failed login. -/
theorem login_wrong_password
    (st : AuthState) (store : AuthStore) (e p p0 : String) (u : User)
    (wfail : Nat → Bool)
    (hfind : (store.users.getD []).find? (fun x => lowerStr x.email == lowerStr e) = some u)
    (hcred : store.passwords.lookup ("password_" ++ u.id) = some p0)
    (hne : p ≠ p0) :
    let r := login st store ⟨e, p⟩ wfail
    r.err = some .invalidPassword ∧ r.store = store ∧
    r.state.isAuthenticated = st.isAuthenticated ∧ r.state.user = st.user := by
  dsimp only
  unfold login
  simp only [hfind]
  rw [if_pos (by simp [hcred]; exact fun h => absurd h.symm hne)]
  exact ⟨rfl, rfl, rfl, rfl⟩

/-- C7 witness: wrong password for a concrete registered user. -/
theorem login_wrong_password_witness :
    let u0 : User := ⟨"7", "a@x.com", "Ann", none, "t0", defaultPreferences⟩
    let st0 : AuthState := ⟨false, none, false⟩
    let store0 : AuthStore := ⟨none, some [u0], [("password_7", "secret1")]⟩
    let r := login st0 store0 ⟨"a@x.com", "wrongpw"⟩ (fun _ => false)
    r.err = some .invalidPassword ∧ r.store = store0 ∧
    r.state.isAuthenticated = st0.isAuthenticated ∧ r.state.user = st0.user :=
  login_wrong_password ⟨false, none, false⟩
    ⟨none, some [⟨"7", "a@x.com", "Ann", none, "t0", defaultPreferences⟩], [("password_7", "secret1")]⟩
    "a@x.com" "wrongpw" "secret1" ⟨"7", "a@x.com", "Ann", none, "t0", defaultPreferences⟩
    (fun _ => false) (by decide) (by decide) (by decide)

/-- C8 counterexample: `register` with the second write (the credential key)
failing leaves the registry holding its new value while the session slot and
credential key hold their old values — the persisted keys are neither all old
nor all new, refuting the all-or-nothing reading of the claim at a concrete
input. -/
theorem register_write_failure_partial_persistence :
    ¬ (let st0 : AuthState := ⟨false, none, false⟩
       let store0 : AuthStore := ⟨none, none, []⟩
       let c : RegisterCredentials := ⟨"Ann", "ann@x.com", "secret1", "secret1"⟩
       let r := register st0 store0 c 1 "t" (fun n => n == 1)
       r.store = store0 ∨
       r.store = (register st0 store0 c 1 "t" (fun _ => false)).store) := by
  decide

/-- C8 (amended): a storage-write failure during `register`, `login`,
`updateUser` or `toggle` surfaces as an error and leaves the in-memory state
unchanged — the reducer's authenticated flag and user, and the membership
flag, are as before, and the session slot is never written before the failing
write — but writes already performed by the same operation persist: there is
no rollback, so the persisted keys need not be all-old or all-new. -/
theorem storage_failure_keeps_memory_state
    (st : AuthState) (store : AuthStore) (c : RegisterCredentials) (lc : LoginCredentials)
    (p : UserPatch) (now : Nat) (nowIso : String) (wfail : Nat → Bool)
    (slot : Option MWVal) (flag : Bool) (item : MovieItem) :
    ((register st store c now nowIso wfail).err = some .storageFailure →
      (register st store c now nowIso wfail).state.isAuthenticated = st.isAuthenticated ∧
      (register st store c now nowIso wfail).state.user = st.user ∧
      (register st store c now nowIso wfail).store.authUser = store.authUser) ∧
    ((login st store lc wfail).err = some .storageFailure →
      (login st store lc wfail).state.isAuthenticated = st.isAuthenticated ∧
      (login st store lc wfail).state.user = st.user ∧
      (login st store lc wfail).store = store) ∧
    ((updateUser st store p wfail).err = some .storageFailure →
      (updateUser st store p wfail).state = st) ∧
    ((toggleWatchlistMovie slot flag item wfail).errored = true →
      (toggleWatchlistMovie slot flag item wfail).slot = slot ∧
      (toggleWatchlistMovie slot flag item wfail).isInWatchlist = flag) := by
  refine ⟨?_, ?_, ?_, ?_⟩
  · simp only [register]
    repeat' split
    all_goals intro h
    all_goals first
      | exact ⟨rfl, rfl, rfl⟩
      | simp at h
  · simp only [login]
    repeat' split
    all_goals intro h
    all_goals first
      | exact ⟨rfl, rfl, rfl⟩
      | simp at h
  · simp only [updateUser]
    repeat' split
    all_goals intro h
    all_goals first
      | rfl
      | simp at h
  · simp only [toggleWatchlistMovie]
    repeat' split
    all_goals intro h
    all_goals first
      | exact ⟨rfl, rfl⟩
      | simp at h

/-- C8 witness: with every write failing, a concrete register, login,
updateUser and toggle each surface a storage failure and keep the in-memory
state. -/
theorem storage_failure_keeps_memory_state_witness :
    let u0 : User := ⟨"7", "a@x.com", "Ann", none, "t0", defaultPreferences⟩
    let st0 : AuthState := ⟨true, some u0, false⟩
    let store0 : AuthStore := ⟨some u0, some [u0], [("password_7", "secret1")]⟩
    let c : RegisterCredentials := ⟨"Bob", "bob@x.com", "secret2", "secret2"⟩
    let lc : LoginCredentials := ⟨"a@x.com", "secret1"⟩
    let p : UserPatch := ⟨none, none, some "Ann B", none, none, none⟩
    let w : Nat → Bool := fun _ => true
    ((register st0 store0 c 9 "t1" w).err = some .storageFailure ∧
      (register st0 store0 c 9 "t1" w).state.isAuthenticated = st0.isAuthenticated ∧
      (register st0 store0 c 9 "t1" w).state.user = st0.user ∧
      (register st0 store0 c 9 "t1" w).store.authUser = store0.authUser) ∧
    ((login st0 store0 lc w).err = some .storageFailure ∧
      (login st0 store0 lc w).state.isAuthenticated = st0.isAuthenticated ∧
      (login st0 store0 lc w).state.user = st0.user ∧
      (login st0 store0 lc w).store = store0) ∧
    ((updateUser st0 store0 p w).err = some .storageFailure ∧
      (updateUser st0 store0 p w).state = st0) ∧
    ((toggleWatchlistMovie (some (.ok [])) false ⟨1, "A"⟩ w).errored = true ∧
      (toggleWatchlistMovie (some (.ok [])) false ⟨1, "A"⟩ w).slot = some (.ok []) ∧
      (toggleWatchlistMovie (some (.ok [])) false ⟨1, "A"⟩ w).isInWatchlist = false) := by
  refine ⟨⟨by decide, ?_⟩, ⟨by decide, ?_⟩, ⟨by decide, ?_⟩, ⟨by decide, ?_⟩⟩
  · exact (storage_failure_keeps_memory_state _ _ _ ⟨"a@x.com", "secret1"⟩
      ⟨none, none, some "Ann B", none, none, none⟩ 9 "t1" _ (some (.ok [])) false ⟨1, "A"⟩).1
      (by decide)
  · exact (storage_failure_keeps_memory_state _ _ ⟨"Bob", "bob@x.com", "secret2", "secret2"⟩ _
      ⟨none, none, some "Ann B", none, none, none⟩ 9 "t1" _ (some (.ok [])) false ⟨1, "A"⟩).2.1
      (by decide)
  · exact (storage_failure_keeps_memory_state _ _ ⟨"Bob", "bob@x.com", "secret2", "secret2"⟩
      ⟨"a@x.com", "secret1"⟩ _ 9 "t1" _ (some (.ok [])) false ⟨1, "A"⟩).2.2.1 (by decide)
  · exact (storage_failure_keeps_memory_state ⟨true, some ⟨"7", "a@x.com", "Ann", none, "t0",
      defaultPreferences⟩, false⟩ ⟨some ⟨"7", "a@x.com", "Ann", none, "t0", defaultPreferences⟩,
      some [⟨"7", "a@x.com", "Ann", none, "t0", defaultPreferences⟩], [("password_7", "secret1")]⟩
      ⟨"Bob", "bob@x.com", "secret2", "secret2"⟩ ⟨"a@x.com", "secret1"⟩
      ⟨none, none, some "Ann B", none, none, none⟩ 9 "t1" (fun _ => true)
      (some (.ok [])) false ⟨1, "A"⟩).2.2.2 (by decide)

/-- C2 counterexample: with a corrupt (non-JSON) value stored at the
`watchlist` key, the watchlist screen's list read does return the empty
sequence on a fresh screen, but the persisted value is NOT reset: it still
holds the corrupt string, not a valid empty-collection encoding, refuting the
claim's conjunction at a concrete input. -/
theorem corrupt_watchlist_not_repaired_by_list_read :
    ¬ ((loadWatchlist [] (some (MWVal.corrupt "not json")) none).rows = [] ∧
       (loadWatchlist [] (some (MWVal.corrupt "not json")) none).movieSlot =
         some (MWVal.ok [])) := by
  decide

/-- C2 (amended): a corrupt value at the `watchlist` key is treated as empty
but repaired only by the profile screen's stats read, which deletes the key
(`removeItem`), so afterwards the collection is absent (read back as empty)
rather than re-encoded; the watchlist screen's list read and the detail
screen's membership read catch the parse failure and leave both the persisted
value and their previous in-memory state unchanged (a fresh screen therefore
shows the empty sequence). -/
theorem corrupt_watchlist_read_semantics (raw : String) (prev : List WLRow)
    (tvSlot : Option TWVal) (prevFlag : Bool) (movieId : Nat) :
    (loadWatchlist prev (some (.corrupt raw)) tvSlot).rows = prev ∧
    (loadWatchlist prev (some (.corrupt raw)) tvSlot).movieSlot = some (.corrupt raw) ∧
    (loadWatchlist prev (some (.corrupt raw)) tvSlot).tvSlot = tvSlot ∧
    (loadProfileData (some (.corrupt raw))).totalMovies = 0 ∧
    (loadProfileData (some (.corrupt raw))).movieSlot = none ∧
    checkWatchlistStatus prevFlag (some (.corrupt raw)) movieId = prevFlag := by
  refine ⟨?_, ?_, ?_, rfl, rfl, rfl⟩ <;> rcases tvSlot with _ | (_ | _) <;> rfl

/-- C4: `list('all')` returns the movie collection annotated `movie` followed
by the TV collection annotated `tv`, with no cross-collection
de-duplication: for any id, the number of rows bearing that id is the sum of
its occurrences in the two collections, one row per source collection with
the corresponding media type. -/
theorem list_all_concatenates_without_dedup
    (prev : List WLRow) (ms : List MovieItem) (ts : List TVItem) (n : Nat) :
    let r := loadWatchlist prev (some (.ok ms)) (some (.ok ts))
    r.rows = ms.map annotateMovie ++ ts.map annotateTV ∧
    r.rows.countP (fun row => row.id == n) =
      ms.countP (fun m => m.id == n) + ts.countP (fun t => t.id == n) ∧
    r.rows.countP (fun row => row.id == n && row.media_type == MediaType.movie) =
      ms.countP (fun m => m.id == n) ∧
    r.rows.countP (fun row => row.id == n && row.media_type == MediaType.tv) =
      ts.countP (fun t => t.id == n) := by
  dsimp only
  refine ⟨rfl, ?_, ?_, ?_⟩ <;>
    simp [loadWatchlist, List.countP_append, List.countP_map, annotateMovie, annotateTV,
      Function.comp_def]

/-- C3 counterexample: toggling `{id: 1, title: "B"}` twice on the collection
`[{id: 1, title: "A"}]` (a member state: the flag produced by the presence
check is true) restores membership of id 1, but the collection now holds the
toggled object instead of the originally stored entry — the original contents
are not restored, even up to order. -/
theorem double_toggle_not_content_preserving :
    let arr : List MovieItem := [⟨1, "A"⟩]
    let item : MovieItem := ⟨1, "B"⟩
    let flag := arr.any (fun x => x.id == item.id)
    let r1 := toggleWatchlistMovie (some (.ok arr)) flag item (fun _ => false)
    let r2 := toggleWatchlistMovie r1.slot r1.isInWatchlist item (fun _ => false)
    flag = true ∧ r2.isInWatchlist = flag ∧
    r2.slot = some (.ok [⟨1, "B"⟩]) ∧
    ¬ ([(⟨1, "B"⟩ : MovieItem)].Perm [⟨1, "A"⟩]) := by
  decide

theorem filter_id_append_self {α : Type} (idf : α → Nat) (arr : List α) (item : α)
    (h : arr.any (fun x => idf x == idf item) = false) :
    (arr ++ [item]).filter (fun x => idf x != idf item) = arr := by
  rw [List.filter_append]
  have h1 : arr.filter (fun x => idf x != idf item) = arr := by
    apply List.filter_eq_self.mpr
    intro a ha
    have := (List.any_eq_false.mp h) a ha
    simpa using this
  simp [h1]

theorem perm_filter_append {α : Type} (idf : α → Nat) (arr : List α) (item : α)
    (h : arr.filter (fun x => idf x == idf item) = [item]) :
    (arr.filter (fun x => idf x != idf item) ++ [item]).Perm arr := by
  have hp := List.filter_append_perm (fun x => idf x != idf item) arr
  have hnot : arr.filter (fun x => !(idf x != idf item)) =
      arr.filter (fun x => idf x == idf item) := by
    apply List.filter_congr
    intro a _
    simp [bne]
  rw [hnot, h] at hp
  exact hp

/-- C3 (amended): toggling the same item twice in succession, starting from a
flag in sync with membership and with no intervening mutation, always
restores the membership state; when the item was absent it restores the exact
original collection; when it was present, the result is the original
collection with its id-matching entries replaced by one copy of the toggled
object (for TV, the object tagged `media_type: 'tv'`) — which equals the
original contents up to order exactly when the id-matching entries were a
single copy of that object. -/
theorem double_toggle_characterization
    (arr : List MovieItem) (item : MovieItem)
    (tarr : List TVItem) (tvShow : TVItem) :
    let flag := arr.any (fun x => x.id == item.id)
    let r1 := toggleWatchlistMovie (some (.ok arr)) flag item (fun _ => false)
    let r2 := toggleWatchlistMovie r1.slot r1.isInWatchlist item (fun _ => false)
    let tflag := tarr.any (fun x => x.id == tvShow.id)
    let s1 := toggleWatchlistTV (some (.ok tarr)) tflag tvShow (fun _ => false)
    let s2 := toggleWatchlistTV s1.slot s1.isInWatchlist tvShow (fun _ => false)
    (r2.isInWatchlist = flag ∧
      (flag = false → r2.slot = some (.ok arr)) ∧
      (flag = true →
        r2.slot = some (.ok (arr.filter (fun x => x.id != item.id) ++ [item])) ∧
        (arr.filter (fun x => x.id == item.id) = [item] →
          ∃ l, r2.slot = some (MWVal.ok l) ∧ l.Perm arr))) ∧
    (s2.isInWatchlist = tflag ∧
      (tflag = false → s2.slot = some (.ok tarr)) ∧
      (tflag = true →
        s2.slot = some (.ok (tarr.filter (fun x => x.id != tvShow.id) ++
          [{ tvShow with hasMediaTypeTag := true }])) ∧
        (tarr.filter (fun x => x.id == tvShow.id) = [{ tvShow with hasMediaTypeTag := true }] →
          ∃ l, s2.slot = some (TWVal.ok l) ∧ l.Perm tarr))) := by
  dsimp only
  constructor
  · cases hflag : arr.any (fun x => x.id == item.id) with
    | false =>
        have e1 : toggleWatchlistMovie (some (.ok arr)) false item (fun _ => false) =
            ⟨some (.ok (arr ++ [item])), true, false⟩ := rfl
        have e2 : toggleWatchlistMovie (some (.ok (arr ++ [item]))) true item (fun _ => false) =
            ⟨some (.ok ((arr ++ [item]).filter (fun x => x.id != item.id))), false, false⟩ := rfl
        rw [e1]
        dsimp only
        rw [e2]
        refine ⟨rfl, fun _ => ?_, fun h => absurd h (by simp)⟩
        have hfa := filter_id_append_self (fun m : MovieItem => m.id) arr item hflag
        dsimp only at hfa ⊢
        rw [hfa]
    | true =>
        have e1 : toggleWatchlistMovie (some (.ok arr)) true item (fun _ => false) =
            ⟨some (.ok (arr.filter (fun x => x.id != item.id))), false, false⟩ := rfl
        have e2 : toggleWatchlistMovie (some (.ok (arr.filter (fun x => x.id != item.id))))
            false item (fun _ => false) =
            ⟨some (.ok (arr.filter (fun x => x.id != item.id) ++ [item])), true, false⟩ := rfl
        rw [e1]
        dsimp only
        rw [e2]
        exact ⟨rfl, fun h => absurd h (by simp), fun _ => ⟨rfl, fun hone =>
          ⟨_, rfl, perm_filter_append (fun m : MovieItem => m.id) arr item hone⟩⟩⟩
  · cases hflag : tarr.any (fun x => x.id == tvShow.id) with
    | false =>
        have e1 : toggleWatchlistTV (some (.ok tarr)) false tvShow (fun _ => false) =
            ⟨some (.ok (tarr ++ [{ tvShow with hasMediaTypeTag := true }])), true, false⟩ := rfl
        have e2 : toggleWatchlistTV
            (some (.ok (tarr ++ [{ tvShow with hasMediaTypeTag := true }]))) true tvShow
            (fun _ => false) =
            ⟨some (.ok ((tarr ++ [{ tvShow with hasMediaTypeTag := true }]).filter
              (fun x => x.id != tvShow.id))), false, false⟩ := rfl
        rw [e1]
        dsimp only
        rw [e2]
        refine ⟨rfl, fun _ => ?_, fun h => absurd h (by simp)⟩
        have hany : tarr.any
            (fun x => x.id == ({ tvShow with hasMediaTypeTag := true } : TVItem).id) = false :=
          hflag
        have hfa := filter_id_append_self (fun t : TVItem => t.id) tarr
          { tvShow with hasMediaTypeTag := true } hany
        dsimp only at hfa ⊢
        rw [hfa]
    | true =>
        have e1 : toggleWatchlistTV (some (.ok tarr)) true tvShow (fun _ => false) =
            ⟨some (.ok (tarr.filter (fun x => x.id != tvShow.id))), false, false⟩ := rfl
        have e2 : toggleWatchlistTV (some (.ok (tarr.filter (fun x => x.id != tvShow.id))))
            false tvShow (fun _ => false) =
            ⟨some (.ok (tarr.filter (fun x => x.id != tvShow.id) ++
              [{ tvShow with hasMediaTypeTag := true }])), true, false⟩ := rfl
        rw [e1]
        dsimp only
        rw [e2]
        refine ⟨rfl, fun h => absurd h (by simp), fun _ => ⟨rfl, fun hone => ?_⟩⟩
        have hone2 : tarr.filter
            (fun x => (fun t : TVItem => t.id) x ==
              (fun t : TVItem => t.id) ({ tvShow with hasMediaTypeTag := true } : TVItem)) =
            [{ tvShow with hasMediaTypeTag := true }] := hone
        exact ⟨_, rfl, perm_filter_append (fun t : TVItem => t.id) tarr
          { tvShow with hasMediaTypeTag := true } hone2⟩

/-- C3 witness: a member-state double toggle on the movie collection whose
stored entry equals the toggled item (contents restored up to order), and a
non-member-state double toggle on the TV collection (contents restored
exactly). -/
theorem double_toggle_characterization_witness :
    let arr : List MovieItem := [⟨1, "A"⟩]
    let item : MovieItem := ⟨1, "A"⟩
    let flag := arr.any (fun x => x.id == item.id)
    let r1 := toggleWatchlistMovie (some (.ok arr)) flag item (fun _ => false)
    let r2 := toggleWatchlistMovie r1.slot r1.isInWatchlist item (fun _ => false)
    let tarr : List TVItem := [⟨5, "S", true⟩]
    let tvShow : TVItem := ⟨9, "T", false⟩
    let tflag := tarr.any (fun x => x.id == tvShow.id)
    let s1 := toggleWatchlistTV (some (.ok tarr)) tflag tvShow (fun _ => false)
    let s2 := toggleWatchlistTV s1.slot s1.isInWatchlist tvShow (fun _ => false)
    (∃ l, r2.slot = some (MWVal.ok l) ∧ l.Perm [⟨1, "A"⟩]) ∧
    s2.slot = some (.ok [⟨5, "S", true⟩]) := by
  have h := double_toggle_characterization [⟨1, "A"⟩] ⟨1, "A"⟩ [⟨5, "S", true⟩] ⟨9, "T", false⟩
  exact ⟨(h.1.2.2 (by decide)).2 (by decide), h.2.2.1 (by decide)⟩

theorem applyWOp_preserves_nodup (arr : List MovieItem) (op : WOp)
    (h : (arr.map (fun m => m.id)).Nodup) :
    ((applyWOp arr op).map (fun m => m.id)).Nodup := by
  cases op with
  | toggleOp item =>
      by_cases hmem : arr.any (fun x => x.id == item.id) = true
      · simp only [applyWOp, if_pos hmem]
        exact h.sublist ((List.filter_sublist arr).map _)
      · simp only [applyWOp, if_neg hmem]
        rw [List.map_append]
        simp only [List.map_cons, List.map_nil]
        rw [(List.perm_append_singleton _ _).nodup_iff, List.nodup_cons]
        refine ⟨?_, h⟩
        intro hin
        apply hmem
        rw [List.any_eq_true]
        obtain ⟨m, hm, hid⟩ := List.mem_map.mp hin
        exact ⟨m, hm, by simp [hid]⟩
  | removeOp i =>
      simp only [applyWOp]
      exact h.sublist ((List.filter_sublist arr).map _)
  | clearOp => simp [applyWOp]

/-- C9: within a single watchlist collection, ids stay unique under every
sequence of toggle (presence check before insert), remove and clear
operations: starting from a collection with pairwise distinct ids, the
collection after any such sequence still has pairwise distinct ids — in
particular no operation inserts an entry whose id already occurs. -/
theorem watchlist_ids_stay_unique
    (arr : List MovieItem) (ops : List WOp)
    (h : (arr.map (fun m => m.id)).Nodup) :
    ((runWOps arr ops).map (fun m => m.id)).Nodup := by
  induction ops generalizing arr with
  | nil => exact h
  | cons op ops ih => exact ih (applyWOp arr op) (applyWOp_preserves_nodup arr op h)

/-- C9 witness: a concrete operation sequence (toggle an existing id, toggle
a fresh id, toggle it again, remove, clear, toggle) keeps ids unique. -/
theorem watchlist_ids_stay_unique_witness :
    (([⟨1, "A"⟩] : List MovieItem).map (fun m => m.id)).Nodup ∧
    ((runWOps [⟨1, "A"⟩] [.toggleOp ⟨1, "B"⟩, .toggleOp ⟨2, "C"⟩, .toggleOp ⟨2, "C"⟩,
      .removeOp 9, .toggleOp ⟨3, "D"⟩, .clearOp, .toggleOp ⟨1, "E"⟩]).map
        (fun m => m.id)).Nodup :=
  ⟨by decide, watchlist_ids_stay_unique [⟨1, "A"⟩]
    [.toggleOp ⟨1, "B"⟩, .toggleOp ⟨2, "C"⟩, .toggleOp ⟨2, "C"⟩,
      .removeOp 9, .toggleOp ⟨3, "D"⟩, .clearOp, .toggleOp ⟨1, "E"⟩] (by decide)⟩
